import Mathlib

/-!
Verification of the NL-Backend prompt-processing pipeline.

Shallow embedding of the core pipeline modules:
- `src/features/aiProcessing/contextEnricher.js` (prompt enrichment)
- `src/features/aiProcessing/claudeService.js`   (LLM client wrapper)
- `src/features/aiProcessing/promptController.js` (controller + async stages)
- `src/features/shared/database/dbUtils.js`       (document-store helpers)

External collaborators (Firestore, Cloud Storage, the Claude HTTP API,
`JSON.parse`/`JSON.stringify`, the csv/xlsx parsing libraries, and the
dynamically compiled `new Function` sandbox) are modelled as explicit
oracle parameters; everything written in the repository itself is
translated directly.
-/

namespace NL

/-- Dynamic JavaScript values (the subset relevant to this pipeline). -/
inductive Json where
  | null : Json
  | bool (b : Bool) : Json
  | num (n : Int) : Json
  | str (s : String) : Json
  | arr (elems : List Json) : Json
  | obj (fields : List (String × Json)) : Json

/-- JavaScript truthiness of an optional string: `undefined`/`null` and the
empty string are falsy, every other string is truthy. -/
def strTruthy : Option String → Bool
  | none => false
  | some s => s ≠ ""

/-- Does `needle` occur as a contiguous run inside the character list? -/
def hasSub (needle : List Char) : List Char → Bool
  | [] => needle.isEmpty
  | c :: rest => needle.isPrefixOf (c :: rest) || hasSub needle rest

/-- Embeds `s.includes(pat)`: substring occurrence. -/
def jsIncludes (s pat : String) : Bool := hasSub pat.toList s.toList

/-- Executable `String.prototype.trim`: drop whitespace from both ends. -/
def jsTrim (p : String) : String :=
  String.mk (((p.toList.dropWhile Char.isWhitespace).reverse.dropWhile Char.isWhitespace).reverse)

/-- Is the value a JSON array? (`Array.isArray` in the source.) -/
def Json.isArr : Json → Bool
  | .arr _ => true
  | _ => false

/-- Prompt lifecycle states, from `promptModels.js` (`PROMPT_STATUS`). -/
inductive Status where
  | created
  | processing
  | generated
  | executing
  | completed
  | failed
deriving DecidableEq, Repr

/-- An `AppError` as raised by the controllers: message, HTTP status, code. -/
structure AppError where
  message : String
  httpStatus : Nat
  code : String
deriving DecidableEq, Repr

/-- A thrown JavaScript error as seen by a `catch` block: a message and an
optional `code` property (plain `Error`s have none, `AppError`s do). -/
structure JsError where
  message : String
  code : Option String
deriving DecidableEq, Repr

/-- The `error` record persisted on a failed prompt
(`promptController.js`, the two catch blocks). -/
structure ErrorRecord where
  message : String
  code : String
  stage : String
deriving DecidableEq, Repr

/-- Result value returned by the sandboxed generated code; the controller
inspects the `error`, `visualizations` and `insights` properties
(`promptController.js` lines 405-420).  `none` models an absent/`null`
property; `some []` models a present empty array (truthy in JS). -/
structure ExecResult where
  error : Option String
  visualizations : Option (List Json)
  insights : Option (List Json)

/-- The persisted Prompt document (`createPrompt`, `promptController.js`
lines 31-44). -/
structure PromptRec where
  userId : String
  teamId : Option String
  prompt : String
  datasetIds : List String
  settings : Json
  status : Status
  enhancedPrompt : Option String
  generatedCode : Option String
  executionResults : Option ExecResult
  insights : Option (List Json)
  error : Option ErrorRecord

/-- A partial update passed to `updateDocument(prompts, id, data)`:
`none` means the field is absent from the update object.  The pipeline
never writes `null` into a field it updates, so one `Option` layer
suffices. -/
structure PromptUpdate where
  status : Option Status := none
  enhancedPrompt : Option String := none
  generatedCode : Option String := none
  executionResults : Option ExecResult := none
  insights : Option (List Json) := none
  error : Option ErrorRecord := none
  settings : Option Json := none

/-- Merge a present field over the stored one (Firestore `update` merges
per top-level field: fields absent from the update object are kept). -/
def mergeField {α : Type} : Option α → Option α → Option α
  | some v, _ => some v
  | none, old => old

/-- Firestore `update` merge semantics (`dbUtils.js`, `updateDocument`):
each field present in the update object replaces the stored field, all
other fields are kept. -/
def applyUpdate (r : PromptRec) (u : PromptUpdate) : PromptRec :=
  { r with
    status := u.status.getD r.status
    enhancedPrompt := mergeField u.enhancedPrompt r.enhancedPrompt
    generatedCode := mergeField u.generatedCode r.generatedCode
    executionResults := mergeField u.executionResults r.executionResults
    insights := mergeField u.insights r.insights
    error := mergeField u.error r.error
    settings := u.settings.getD r.settings }

/-- Apply a sequence of persisted partial updates in order. -/
def applyUpdates (r : PromptRec) (us : List PromptUpdate) : PromptRec :=
  us.foldl applyUpdate r

/-! ## Context enricher data model (`contextEnricher.js`) -/

/-- The `aiContext` sub-object of the user preferences. -/
structure AiContext where
  financialYear : Option String := none
  reportingPeriod : Option String := none
  companySize : Option String := none
  analysisPreference : Option String := none
deriving Inhabited

/-- The `preferences` object on the request user. -/
structure UserPreferences where
  industry : Option String := none
  businessType : Option String := none
  aiContext : Option AiContext := none
deriving Inhabited

/-- The `settings` object on the request user. -/
structure UserSettings where
  currency : Option String := none
  dateFormat : Option String := none
  language : Option String := none
deriving Inhabited

/-- The authenticated request user (`req.user`), as consumed by the
enricher and the controllers. -/
structure User where
  uid : String
  teamId : Option String := none
  preferences : Option UserPreferences := none
  settings : Option UserSettings := none

/-- The free-form `context` object on a team document. -/
structure TeamContext where
  business : Option String := none
  industry : Option String := none
  preferences : Option (List (String × String)) := none

/-- A team document, as read by `addTeamContext`. -/
structure Team where
  context : Option TeamContext := none

/-- The `fileInfo` object on a dataset document. -/
structure FileInfo where
  storageUrl : String
  type : String

/-- A column of an inferred dataset schema. -/
structure Column where
  name : String
  type : String
  description : Option String := none
  examples : Option (List String) := none

/-- The inferred `schema` object on a dataset document. -/
structure DsSchema where
  columns : Option (List Column) := none
  sampleData : Option (List Json) := none

/-- A dataset document, as read by the enricher and by `executeCode`. -/
structure Dataset where
  id : String
  name : String
  description : Option String := none
  metadata : Option (List (String × String)) := none
  ownerId : String
  teamId : Option String := none
  schema : Option DsSchema := none
  fileInfo : Option FileInfo := none

/-- A sheet as returned by `xlsx.parse`: its `data` is a row-major cell
matrix. -/
structure Sheet where
  data : List (List Json)

/-- JavaScript coercion of a value used as an object property key
(headers of a spreadsheet row become keys in `getSampleData`). -/
def jsKey : Json → String
  | .null => "null"
  | .bool true => "true"
  | .bool false => "false"
  | .num n => toString n
  | .str s => s
  | .arr _ => ""
  | .obj _ => "[object Object]"

/-- Emit `label ++ value ++ "\n"` when the optional field is truthy,
nothing otherwise (the `if (x) context += ...` pattern of
`addUserContext`/`addTeamContext`). -/
def optLine (label : String) (v : Option String) : String :=
  if strTruthy v then label ++ v.getD "" ++ "\n" else ""

/-- Embeds `contextEnricher.addUserContext` (lines 96-144): the user-preferences
section, built only from truthy fields. -/
def addUserContext (user : User) : String :=
  let s := user.settings.getD default
  let p := user.preferences.getD default
  "USER PREFERENCES:\n"
    ++ optLine "- Currency: " s.currency
    ++ optLine "- Date Format: " s.dateFormat
    ++ optLine "- Language: " s.language
    ++ optLine "- Industry: " p.industry
    ++ optLine "- Business Type: " p.businessType
    ++ (match p.aiContext with
      | none => ""
      | some a =>
        optLine "- Financial Year: " a.financialYear
          ++ optLine "- Reporting Period: " a.reportingPeriod
          ++ optLine "- Company Size: " a.companySize
          ++ optLine "- Analysis Preference: " a.analysisPreference)
    ++ "\n"

/-- Embeds `contextEnricher.addTeamContext` (lines 151-183).  The team fetch is
an oracle; a rejected fetch is absorbed by the catch block and yields the
empty string. -/
def addTeamContext (fetchTeam : String → Except String (Option Team)) (teamId : String) :
    String :=
  match fetchTeam teamId with
  | .error _ => ""
  | .ok none => ""
  | .ok (some team) =>
    "TEAM CONTEXT:\n"
      ++ (match team.context with
        | none => ""
        | some c =>
          optLine "- Business: " c.business
            ++ optLine "- Industry: " c.industry
            ++ (match c.preferences with
              | none => ""
              | some kvs =>
                String.join (kvs.map fun kv => "- " ++ kv.1 ++ ": " ++ kv.2 ++ "\n")))
      ++ "\n"

/-- Embeds `contextEnricher.getSampleData` (lines 264-325).  The blob download
and the csv/xlsx parsing libraries are oracles; every failure in the body
is absorbed by the catch block, which returns `[]`.  A dataset without a
`fileInfo` object also lands in the catch (property access on
`undefined`) and yields `[]`. -/
def getSampleData (download : String → Except String String)
    (parseCsv : String → Except String (List Json))
    (parseXlsx : String → Except String (List Sheet))
    (ds : Dataset) : List Json :=
  match ds.fileInfo with
  | none => []
  | some fi =>
    match download fi.storageUrl with
    | .error _ => []
    | .ok content =>
      if fi.type == "text/csv" then
        match parseCsv content with
        | .error _ => []
        | .ok rows => rows.take 5
      else if jsIncludes fi.type "spreadsheetml" || jsIncludes fi.type "excel" then
        match parseXlsx content with
        | .error _ => []
        | .ok [] => []
        | .ok (sheet0 :: _) =>
          match sheet0.data with
          | [] => []
          | headers :: rest =>
            (rest.take 5).map fun row =>
              Json.obj (headers.enum.map fun ih => (jsKey ih.2, row.getD ih.1 Json.null))
      else []

/-- One schema line of `addDatasetContext` (lines 227-238). -/
def colLine (c : Column) : String :=
  "- Column: " ++ c.name ++ ", Type: " ++ c.type
    ++ (if strTruthy c.description then ", Description: " ++ c.description.getD "" else "")
    ++ "\n"
    ++ (match c.examples with
      | none => ""
      | some exs =>
        if exs.length > 0 then
          "  Examples: " ++ String.intercalate ", " (exs.take 3) ++ "\n"
        else "")

/-- The per-dataset block of `addDatasetContext` (lines 210-250),
including the sample-data part: cached `schema.sampleData` is used when
present, otherwise `getSampleData` is invoked (whose failures already
degrade to `[]`).  `stringify` models `JSON.stringify(-, null, 2)`. -/
def datasetSection (sample : Dataset → List Json) (stringify : List Json → String)
    (ds : Dataset) : String :=
  "\nDATASET: " ++ ds.name ++ "\n"
    ++ (if strTruthy ds.description then "Description: " ++ ds.description.getD "" ++ "\n" else "")
    ++ (match ds.metadata with
      | none => ""
      | some kvs => "Metadata:\n" ++ String.join (kvs.map fun kv => "- " ++ kv.1 ++ ": " ++ kv.2 ++ "\n"))
    ++ (match ds.schema with
      | none => ""
      | some sc =>
        match sc.columns with
        | none => ""
        | some cols => "\nSchema:\n" ++ String.join (cols.map colLine))
    ++ (match ds.schema.bind (fun sc => sc.sampleData) with
      | none => "\nSample Data:\n" ++ stringify (sample ds) ++ "\n"
      | some cached => "\nSample Data:\n" ++ stringify cached ++ "\n")

/-- Model of `Promise.all` over the per-id dataset fetches: rejects when any fetch
rejects, otherwise collects the (possibly `null`) documents in order. -/
def fetchAll (fetch : String → Except String (Option Dataset)) :
    List String → Except String (List (Option Dataset))
  | [] => .ok []
  | id :: rest => do
    let d ← fetch id
    let ds ← fetchAll fetch rest
    .ok (d :: ds)

/-- The fetched, non-`null` dataset documents (the result of
`datasets.filter(ds => ds !== null && ...)` before the permission part),
taken from the successful `Promise.all` branch. -/
def fetchedDatasets (fetch : String → Except String (Option Dataset))
    (datasetIds : List String) : List Dataset :=
  ((fetchAll fetch datasetIds).toOption.getD []).filterMap id

/-- The retention filter of `addDatasetContext` (lines 201-203): a fetched
dataset is kept when its `ownerId` equals the requesting user id or its
`teamId` property is truthy.  Note that the principal own team id is not an
input. -/
def retainedDatasets (fetch : String → Except String (Option Dataset))
    (datasetIds : List String) (userId : String) : List Dataset :=
  (fetchedDatasets fetch datasetIds).filter fun ds =>
    ds.ownerId == userId || strTruthy ds.teamId

/-- Embeds `contextEnricher.addDatasetContext` (lines 191-257).  A rejected
dataset fetch makes `Promise.all` reject and the catch block replaces the
whole section with the error note. -/
def addDatasetContext (fetch : String → Except String (Option Dataset))
    (sample : Dataset → List Json) (stringify : List Json → String)
    (datasetIds : List String) (userId : String) : String :=
  match fetchAll fetch datasetIds with
  | .error _ => "Error retrieving dataset information.\n\n"
  | .ok fetched =>
    let validDatasets := (fetched.filterMap id).filter fun ds =>
      ds.ownerId == userId || strTruthy ds.teamId
    if validDatasets.length == 0 then "No valid datasets available.\n\n"
    else
      "DATASETS:\n"
        ++ String.join (validDatasets.map (datasetSection sample stringify))
        ++ "\n"

/-- Embeds `contextEnricher.addCodeInstructions` (lines 331-358): a fixed
instruction block.  Braces are written with escapes. -/
def addCodeInstructions : String :=
  "\nCODE GENERATION INSTRUCTIONS:\n\nGenerate JavaScript code that:\n"
    ++ "1. Analyzes the data described in the datasets\n"
    ++ "2. Creates appropriate visualizations based on the request\n"
    ++ "3. Extracts meaningful insights\n"
    ++ "4. Formats results in a structured format\n\nCODE CONSTRAINTS:\n"
    ++ "- Use only pure JavaScript and standard Node.js libraries\n"
    ++ "- Do not use any external imports\n"
    ++ "- Assume the dataset is available as a parsed JavaScript object\n"
    ++ "- Return results in this format: \x7b visualizations: [], insights: [] \x7d\n"
    ++ "- Each visualization should include: \x7b type, title, data, config \x7d\n"
    ++ "- Each insight should include: \x7b title, content, importance \x7d\n\nBEST PRACTICES:\n"
    ++ "- Use appropriate data processing techniques\n"
    ++ "- Clean and validate data before analysis\n"
    ++ "- Use descriptive variable names\n"
    ++ "- Handle potential errors gracefully\n"
    ++ "- Add brief comments to explain complex operations\n"
    ++ "\nRESPOND ONLY WITH THE GENERATED CODE, NO EXPLANATIONS OR OTHER TEXT.\n"

/-- External collaborators consumed by the enricher, as oracles. -/
structure EnrichEnv where
  fetchTeam : String → Except String (Option Team)
  fetchDataset : String → Except String (Option Dataset)
  download : String → Except String String
  parseCsv : String → Except String (List Json)
  parseXlsx : String → Except String (List Sheet)
  stringify : List Json → String

/-- Embeds `contextEnricher.enhancePrompt` (lines 61-89).  All per-team and
per-dataset failures are absorbed inside the helpers, so the function is
total: the outer catch (which would rethrow `CONTEXT_ENHANCEMENT_ERROR`)
is unreachable from the modelled failure sources. -/
def enhancePrompt (env : EnrichEnv) (prompt : String) (datasetIds : List String)
    (user : User) : String :=
  "ORIGINAL REQUEST: " ++ prompt ++ "\n\n"
    ++ addUserContext user
    ++ (if strTruthy user.teamId then addTeamContext env.fetchTeam (user.teamId.getD "") else "")
    ++ (if datasetIds.length > 0 then
        addDatasetContext env.fetchDataset
          (getSampleData env.download env.parseCsv env.parseXlsx) env.stringify
          datasetIds user.uid
      else "")
    ++ addCodeInstructions

/-! ## LLM client (`claudeService.js`) -/

/-- The user-message payload of the insights request
(`claudeService.js` line 137); `stringifyExec` models
`JSON.stringify(results)`. -/
def insightsUserMessage (stringifyExec : ExecResult → String) (results : ExecResult)
    (originalPrompt : String) : String :=
  "Original question: \"" ++ originalPrompt ++ "\"\n\nAnalysis results: "
    ++ stringifyExec results

/-- Embeds `claudeService.generateInsights` (lines 111-161).  `post` is the
Claude HTTP call, whose `.ok` value is the extracted
`response.data.content[0].text` (any network failure, or a response shape
on which that extraction throws, is its `.error`).  `parseJson` models
`JSON.parse` (`none` = parse exception).  Every failure path returns the
empty list; a parsed value that is not an array also yields `[]`. -/
def generateInsights (post : String → Except JsError String)
    (parseJson : String → Option Json) (stringifyExec : ExecResult → String)
    (results : ExecResult) (originalPrompt : String) : List Json :=
  match post (insightsUserMessage stringifyExec results originalPrompt) with
  | .error _ => []
  | .ok insightsText =>
    match parseJson insightsText with
    | none => []
    | some j =>
      match j with
      | .arr xs => xs
      | _ => []

/-! ## Pipeline stage update traces (`promptController.js`) -/

/-- The `\x7bstatus: processing\x7d` update (line 310). -/
def updProcessing : PromptUpdate := { status := some .processing }

/-- The `{enhancedPrompt}` update (line 319). -/
def updEnhanced (e : String) : PromptUpdate := { enhancedPrompt := some e }

/-- The `\x7bgeneratedCode, status: generated\x7d` update (line 328). -/
def updGenerated (c : String) : PromptUpdate :=
  { generatedCode := some c, status := some .generated }

/-- The `\x7bstatus: executing\x7d` update (line 224). -/
def updExecuting : PromptUpdate := { status := some .executing }

/-- The `\x7bstatus: completed, executionResults, insights\x7d` update
(line 423). -/
def updCompleted (res : ExecResult) (ins : List Json) : PromptUpdate :=
  { status := some .completed, executionResults := some res, insights := some ins }

/-- The failure update of `processPrompt` (lines 338-345): status
`failed`, stage `code_generation`, code defaulted to `PROCESSING_ERROR`
when the thrown error carries none. -/
def updFailedGen (e : JsError) : PromptUpdate :=
  { status := some .failed
    error := some ⟨e.message, e.code.getD "PROCESSING_ERROR", "code_generation"⟩ }

/-- The failure update of `executeCode` (lines 434-441): status `failed`,
stage `code_execution`, code defaulted to `EXECUTION_ERROR`. -/
def updFailedExec (e : JsError) : PromptUpdate :=
  { status := some .failed
    error := some ⟨e.message, e.code.getD "EXECUTION_ERROR", "code_execution"⟩ }

/-- The ordered sequence of document writes performed by `processPrompt`
(lines 307-347), as a function of the enrichment outcome and of the
`claudeService.generateCode` outcome on the enriched text.  The catch
block turns any thrown error into the single `failed` write. -/
def processPromptUpdates (enrichOutcome : Except JsError String)
    (genCode : String → Except JsError String) : List PromptUpdate :=
  updProcessing ::
    match enrichOutcome with
    | .error e => [updFailedGen e]
    | .ok enh =>
      updEnhanced enh ::
        match genCode enh with
        | .error e => [updFailedGen e]
        | .ok code => [updGenerated code]

/-- How many times `processPrompt` calls `claudeService.generateCode`:
never after an enrichment failure, exactly once otherwise (no retry). -/
def processPromptGenCalls (enrichOutcome : Except JsError String) : Nat :=
  match enrichOutcome with
  | .error _ => 0
  | .ok _ => 1

/-- The insights value persisted by `executeCode` and whether
`claudeService.generateInsights` was invoked for it (lines 415-420):
`results.insights || []`, replaced by the LLM insights exactly when that
default is empty and `results.visualizations` is truthy. -/
def executeInsights (results : ExecResult) (genIns : List Json) : List Json × Bool :=
  let ins := (results.insights).getD []
  if ins.isEmpty && results.visualizations.isSome then (genIns, true) else (ins, false)

/-- The ordered sequence of document writes performed by `executeCode`
(lines 357-443) after the sandbox outcome is known: one `completed` write
on success, one `failed` write on failure. -/
def executeCodeUpdates (outcome : Except JsError ExecResult) (genIns : List Json) :
    List PromptUpdate :=
  match outcome with
  | .error e => [updFailedExec e]
  | .ok results => [updCompleted results (executeInsights results genIns).1]

/-! ## Document store and controller operations -/

/-- The document store, restricted to the two collections the pipeline
touches. -/
structure Store where
  prompts : List (String × PromptRec)
  datasets : List (String × Dataset)

/-- Embeds `getDocument(prompts, id)`: `none` models a missing document. -/
def getPromptDoc (s : Store) (id : String) : Option PromptRec :=
  (s.prompts.find? fun p => p.1 == id).map fun p => p.2

/-- Embeds `getDocument(datasets, id)`. -/
def getDatasetDoc (s : Store) (id : String) : Option Dataset :=
  (s.datasets.find? fun p => p.1 == id).map fun p => p.2

/-- Embeds `updateDocument(prompts, id, data)` with merge semantics.  Firestore
rejects an update of a missing document; every pipeline update targets a
document that exists, so the missing case is modelled as a no-op. -/
def updatePromptDoc (s : Store) (id : String) (u : PromptUpdate) : Store :=
  { s with
    prompts := s.prompts.map fun p => if p.1 == id then (p.1, applyUpdate p.2 u) else p }

/-- Apply the writes of one stage to the store in order. -/
def updatePromptDocs (s : Store) (id : String) (us : List PromptUpdate) : Store :=
  us.foldl (fun st u => updatePromptDoc st id u) s

/-- The request body of `POST /prompts` after destructuring
(`createPrompt`, line 23): `prompt` may be absent, `datasetIds` defaults
to `[]`, `settings` defaults to `{}`. -/
structure CreateBody where
  prompt : Option String
  datasetIds : List String := []
  settings : Json := Json.obj []

/-- The arguments `createPrompt` captures for the deferred
`processPrompt(newPrompt.id, uid, prompt, datasetIds, req.user)` call
(line 51): taken from the request, not re-read from the store. -/
structure ProcessTask where
  promptId : String
  userId : String
  promptText : String
  datasetIds : List String
  user : User

/-- The prompt document created on submission (`createPrompt`,
lines 31-44): all pipeline fields start `null`, `teamId` is
`req.user.teamId || null`. -/
def initialRecord (user : User) (p : String) (datasetIds : List String)
    (settings : Json) : PromptRec :=
  { userId := user.uid
    teamId := if strTruthy user.teamId then user.teamId else none
    prompt := p
    datasetIds := datasetIds
    settings := settings
    status := .created
    enhancedPrompt := none
    generatedCode := none
    executionResults := none
    insights := none
    error := none }

/-- Embeds `promptController.createPrompt` (lines 20-69): validates the prompt
text, creates the document, and schedules `processPrompt` with arguments
captured from the request.  On the validation error path nothing is
written: the returned store is the input store and no task is scheduled.
`newId` is the id Firestore assigns to the new document. -/
def createPrompt (s : Store) (newId : String) (user : User) (body : CreateBody) :
    Store × Option ProcessTask × Except AppError Status :=
  match body.prompt with
  | none => (s, none, .error ⟨"Prompt text is required", 400, "INVALID_INPUT"⟩)
  | some p =>
    if p == "" || jsTrim p == "" then
      (s, none, .error ⟨"Prompt text is required", 400, "INVALID_INPUT"⟩)
    else
      let newRec := initialRecord user p body.datasetIds body.settings
      ({ s with prompts := s.prompts ++ [(newId, newRec)] },
        some ⟨newId, user.uid, p, body.datasetIds, user⟩,
        .ok .created)

/-- The arguments `executePrompt` captures for the deferred
`executeCode(id, prompt.generatedCode, prompt.datasetIds,
executionOptions, prompt.prompt)` call (line 230): the generated code and
the original prompt text are the values read from the record during the
request, before the asynchronous boundary. -/
structure ExecTask where
  promptId : String
  code : Option String
  datasetIds : List String
  options : Json
  originalPrompt : String

/-- Embeds `promptController.executePrompt` (lines 195-248): not-found and
ownership checks, then the state guard (status not equal to `generated` is
rejected with `INVALID_PROMPT_STATE` before any write), then the
`executing` write followed by scheduling `executeCode`.  Error paths
return the store unchanged and schedule nothing. -/
def executePrompt (s : Store) (id : String) (user : User) (options : Json) :
    Store × Option ExecTask × Except AppError Status :=
  match getPromptDoc s id with
  | none => (s, none, .error ⟨"Prompt not found", 404, "PROMPT_NOT_FOUND"⟩)
  | some p =>
    if p.userId != user.uid && p.teamId != user.teamId then
      (s, none, .error ⟨"You do not have access to this prompt", 403, "ACCESS_DENIED"⟩)
    else if p.status != .generated then
      (s, none, .error ⟨"Prompt is not ready for execution", 400, "INVALID_PROMPT_STATE"⟩)
    else
      (updatePromptDoc s id updExecuting,
        some ⟨id, p.generatedCode, p.datasetIds, options, p.prompt⟩,
        .ok .executing)

/-! ## The asynchronous stages -/

/-- External collaborators of `processPrompt`: the enrichment outcome and
`claudeService.generateCode`.  The enricher embedding above is total, but
the stage also awaits document writes and the code-generation call, so the
thrown-error case is kept abstract. -/
structure ProcEnv where
  enrich : String → List String → User → Except JsError String
  genCode : String → Except JsError String

/-- What `processPrompt` did besides its writes: how often it called
`claudeService.generateCode`. -/
structure ProcReport where
  genCodeCalls : Nat

/-- Embeds `processPrompt` (lines 307-347), acting on the store: it performs the
writes of `processPromptUpdates` in order against the prompt id captured
at scheduling time. -/
def processPrompt (env : ProcEnv) (s : Store) (t : ProcessTask) : Store × ProcReport :=
  let eo := env.enrich t.promptText t.datasetIds t.user
  (updatePromptDocs s t.promptId (processPromptUpdates eo env.genCode),
    ⟨processPromptGenCalls eo⟩)

/-- The read-only execution context handed to the generated code
(lines 371-381). -/
structure DatasetSample where
  id : String
  name : String
  data : List Json

/-- The `{datasets, options}` context object. -/
structure ExecContext where
  datasets : List DatasetSample
  options : Json

/-- External collaborators of `executeCode`: the sandbox (the
function-body extraction, `new Function` compilation and invocation of
lines 392-405, whose compile and runtime failures are its `.error`) and
`claudeService.generateInsights` (total, per the embedding above). -/
structure ExecEnv where
  sandbox : String → ExecContext → Except String ExecResult
  genInsights : ExecResult → String → List Json

/-- The inner try of `executeCode` (lines 386-413): a sandbox failure, or
a returned result with a truthy `error` property, is rethrown as
an `AppError` with code `CODE_EXECUTION_ERROR`.  A
`null` generated code also lands there (the `.replace` call throws). -/
def runSandbox (env : ExecEnv) (code : Option String) (ctx : ExecContext) :
    Except JsError ExecResult :=
  match code with
  | none => .error ⟨"Error executing code: code is not a string", some "CODE_EXECUTION_ERROR"⟩
  | some c =>
    match env.sandbox c ctx with
    | .error m => .error ⟨"Error executing code: " ++ m, some "CODE_EXECUTION_ERROR"⟩
    | .ok results =>
      if strTruthy results.error then
        .error ⟨"Error executing code: " ++ results.error.getD "", some "CODE_EXECUTION_ERROR"⟩
      else .ok results

/-- The execution context built by `executeCode` (lines 364-381): the
dataset documents are re-read from the store at execution time, filtered
for `null`, and reduced to `{id, name, data: ds.schema?.sampleData || []}`. -/
def buildExecContext (s : Store) (t : ExecTask) : ExecContext :=
  { datasets :=
      (t.datasetIds.filterMap (getDatasetDoc s)).map fun ds =>
        ⟨ds.id, ds.name, ((ds.schema.bind fun sc => sc.sampleData).getD [])⟩
    options := t.options }

/-- The sandbox outcome of an `executeCode` run, from the captured task
and the current store. -/
def executeOutcome (env : ExecEnv) (s : Store) (t : ExecTask) : Except JsError ExecResult :=
  runSandbox env t.code (buildExecContext s t)

/-- What `executeCode` did besides its writes: which code text it ran and
whether it called `claudeService.generateInsights`. -/
structure ExecReport where
  codeUsed : Option String
  calledGenerateInsights : Bool

/-- Embeds `executeCode` (lines 357-443), acting on the store: it runs the code
captured in the task (the prompt record is not re-read), then performs the
writes of `executeCodeUpdates`. -/
def executeCode (env : ExecEnv) (s : Store) (t : ExecTask) : Store × ExecReport :=
  let outcome := executeOutcome env s t
  let called :=
    match outcome with
    | .error _ => false
    | .ok results => (executeInsights results (env.genInsights results t.originalPrompt)).2
  (updatePromptDocs s t.promptId
      (executeCodeUpdates outcome (match outcome with
        | .error _ => []
        | .ok results => env.genInsights results t.originalPrompt)),
    ⟨t.code, called⟩)

/-! ## Single-record transition system

Sequential model of the lifecycle of one prompt: `createPrompt` persists the
initial record and schedules `processPrompt` on it; `executePrompt` fires
only on a `generated` record and persists `executing` before scheduling
`executeCode`.  The writes of each stage are persisted one by one, so every
intermediate fold of the update list of a stage is an observable persisted
record. -/

/-- The write sequences a stage can issue against a record, guarded by the
status the record has when the stage starts. -/
inductive StageTrace : PromptRec → List PromptUpdate → Prop where
  | proc (r : PromptRec) (eo : Except JsError String)
      (go : String → Except JsError String) (h : r.status = .created) :
      StageTrace r (processPromptUpdates eo go)
  | execReq (r : PromptRec) (h : r.status = .generated) :
      StageTrace r [updExecuting]
  | run (r : PromptRec) (oc : Except JsError ExecResult) (gi : List Json)
      (h : r.status = .executing) :
      StageTrace r (executeCodeUpdates oc gi)

/-- Records reachable through the pipeline operations: the created record,
and every prefix of writes of a stage fired from a reachable record. -/
inductive Reach : PromptRec → Prop where
  | init (user : User) (p : String) (ids : List String) (st : Json) :
      Reach (initialRecord user p ids st)
  | step (r : PromptRec) (tr : List PromptUpdate) (n : Nat) :
      Reach r → StageTrace r tr → Reach (applyUpdates r (tr.take n))

/-- The record invariant claimed for the pipeline: results and insights
only on `completed`, an error record only on `failed`. -/
def Inv (r : PromptRec) : Prop :=
  (r.executionResults.isSome → r.status = .completed)
    ∧ (r.insights.isSome → r.status = .completed)
    ∧ (r.error.isSome → r.status = .failed)

/-- The status edges the pipeline code writes (a persisted update either
keeps the status or moves along one of these edges). -/
def edgeOK (a b : Status) : Bool :=
  a == b
    || (a == .created && b == .processing)
    || (a == .processing && b == .generated)
    || (a == .generated && b == .executing)
    || (a == .executing && b == .completed)
    || (a == .processing && b == .failed)
    || (a == .executing && b == .failed)

/-- Every consecutive pair of persisted records along a write sequence
respects `edgeOK`. -/
def chainEdgesOK : PromptRec → List PromptUpdate → Bool
  | _, [] => true
  | r, u :: us => edgeOK r.status (applyUpdate r u).status && chainEdgesOK (applyUpdate r u) us

/-- The partial updates the pipeline stages write (all of them); none of
them mentions the `settings` field. -/
inductive IsPipelineUpdate : PromptUpdate → Prop where
  | processing : IsPipelineUpdate updProcessing
  | enhanced (e : String) : IsPipelineUpdate (updEnhanced e)
  | generated (c : String) : IsPipelineUpdate (updGenerated c)
  | executing : IsPipelineUpdate updExecuting
  | completed (res : ExecResult) (ins : List Json) : IsPipelineUpdate (updCompleted res ins)
  | failedGen (e : JsError) : IsPipelineUpdate (updFailedGen e)
  | failedExec (e : JsError) : IsPipelineUpdate (updFailedExec e)

/-! ## Concrete instances used in the theorems -/

/-- A principal with no team. -/
def userA : User := { uid := "u1" }

/-- A `settings` object with `visualizationType = "bar"`. -/
def barSettings : Json :=
  Json.obj [("visualizationType", Json.str "bar"), ("includeInsights", Json.bool true),
    ("language", Json.str "en")]

/-- A dataset owned by the requesting user. -/
def dsMine : Dataset :=
  { id := "ds1", name := "My Dataset", ownerId := "u1"
    schema := some { sampleData := some [] } }

/-- A dataset owned by another user and shared with a team that is not the
team of the principal. -/
def dsForeign : Dataset :=
  { id := "ds2", name := "Other Dataset", ownerId := "u2", teamId := some "T2"
    schema := some { sampleData := some [] } }

/-- A dataset whose sample data must be fetched live and whose blob
download fails. -/
def dsParseFail : Dataset :=
  { id := "ds3", name := "Broken Dataset", ownerId := "u1"
    schema := some { columns := some [{ name := "amount", type := "number" }] }
    fileInfo := some { storageUrl := "files/f.csv", type := "text/csv" } }

/-- A healthy dataset listed after the broken one. -/
def dsLater : Dataset :=
  { id := "ds4", name := "Later Dataset", ownerId := "u1"
    schema := some { sampleData := some [] } }

/-- Dataset fetch oracle serving the four test datasets. -/
def fetchX : String → Except String (Option Dataset) := fun id =>
  if id == "ds1" then .ok (some dsMine)
  else if id == "ds2" then .ok (some dsForeign)
  else if id == "ds3" then .ok (some dsParseFail)
  else if id == "ds4" then .ok (some dsLater)
  else .ok none

/-- A blob download that always fails. -/
def downloadFail : String → Except String String := fun _ => .error "connection reset"

/-- Trivial parser oracles for branches the tests never reach. -/
def parseCsvNone : String → Except String (List Json) := fun _ => .ok []

/-- Trivial xlsx parser oracle. -/
def parseXlsxNone : String → Except String (List Sheet) := fun _ => .ok []

/-- Oracle for `JSON.stringify`: the tests only stringify `[]`. -/
def stringifyEmpty : List Json → String := fun _ => "[]"

/-- The dataset context built with the failing download: the sample
fetch of `ds3` fails, `ds4` follows it. -/
def ctxC8 : String :=
  addDatasetContext fetchX (getSampleData downloadFail parseCsvNone parseXlsxNone)
    stringifyEmpty ["ds3", "ds4"] "u1"

/-- A sandbox result with visualizations absent and an empty insights
list. -/
def resultNoViz : ExecResult := { error := none, visualizations := none, insights := some [] }

/-- Execution environment whose sandbox returns `resultNoViz` and whose
insight generator would return a marker if it were called. -/
def envNoViz : ExecEnv :=
  { sandbox := fun _ _ => .ok resultNoViz
    genInsights := fun _ _ => [Json.str "fallback insight"] }

/-- Execution environment whose sandbox returns `resultNoViz` and whose
insight generator returns nothing. -/
def envNoVizSilent : ExecEnv :=
  { sandbox := fun _ _ => .ok resultNoViz
    genInsights := fun _ _ => [] }

/-- A prompt record in state `executing`, ready for the execution stage. -/
def recExecuting : PromptRec :=
  { userId := "u1", teamId := none, prompt := "orig question", datasetIds := []
    settings := barSettings, status := .executing, enhancedPrompt := some "E"
    generatedCode := some "CODE-A", executionResults := none, insights := none
    error := none }

/-- Store holding only `recExecuting` under id `p1`. -/
def storeExecuting : Store := { prompts := [("p1", recExecuting)], datasets := [] }

/-- The execution task for `recExecuting`, as `executePrompt` would have
captured it. -/
def taskP1 : ExecTask :=
  { promptId := "p1", code := some "CODE-A", datasetIds := [], options := Json.obj []
    originalPrompt := "orig question" }

/-- A prompt record in state `generated`, ready for `executePrompt`. -/
def recGenerated : PromptRec :=
  { userId := "u1", teamId := none, prompt := "orig question", datasetIds := []
    settings := barSettings, status := .generated, enhancedPrompt := some "E"
    generatedCode := some "CODE-A", executionResults := none, insights := none
    error := none }

/-- Store holding only `recGenerated` under id `p1`. -/
def storeGenerated : Store := { prompts := [("p1", recGenerated)], datasets := [] }

/-- A prompt record already `completed` (illegal to execute again). -/
def recCompleted : PromptRec :=
  { userId := "u1", teamId := none, prompt := "orig question", datasetIds := []
    settings := barSettings, status := .completed, enhancedPrompt := some "E"
    generatedCode := some "CODE-A"
    executionResults := some { error := none, visualizations := some [], insights := some [] }
    insights := some [], error := none }

/-- Store holding only `recCompleted` under id `p1`. -/
def storeCompleted : Store := { prompts := [("p1", recCompleted)], datasets := [] }

/-- A sandbox that echoes the code text it was given into a
visualization. -/
def envEcho : ExecEnv :=
  { sandbox := fun c _ => .ok { error := none, visualizations := some [Json.str c], insights := some [Json.str "i"] }
    genInsights := fun _ _ => [] }

/-- The store after `executePrompt` on `storeGenerated` and a concurrent
overwrite of `generatedCode` with `CODE-B`, before execution starts. -/
def storeSwapped : Store :=
  updatePromptDoc (executePrompt storeGenerated "p1" userA (Json.obj [])).1 "p1"
    { generatedCode := some "CODE-B" }

/-- A Claude call oracle that always fails. -/
def postFail : String → Except JsError String := fun _ => .error ⟨"socket hang up", none⟩

/-- A `JSON.parse` oracle that always fails. -/
def parseJsonFail : String → Option Json := fun _ => none

/-- A `JSON.stringify` oracle for execution results. -/
def stringifyExecX : ExecResult → String := fun _ => "\x7b\x7d"

/-- A processing environment whose enrichment succeeds and whose code
generation fails with an upstream error. -/
def penvGenFail : ProcEnv :=
  { enrich := fun _ _ _ => .ok "ENRICHED"
    genCode := fun _ => .error ⟨"Failed to generate code from Claude API", some "CLAUDE_SERVICE_ERROR"⟩ }

/-- A freshly created record for the generation-failure test. -/
def recCreated : PromptRec := initialRecord userA "orig question" [] barSettings

/-- Store holding only `recCreated` under id `p1`. -/
def storeCreated : Store := { prompts := [("p1", recCreated)], datasets := [] }

/-- The processing task `createPrompt` captures for `recCreated`. -/
def taskCreated : ProcessTask :=
  { promptId := "p1", userId := "u1", promptText := "orig question", datasetIds := []
    user := userA }

lemma applyUpdate_processing (r : PromptRec) :
    applyUpdate r updProcessing = { r with status := .processing } := rfl

lemma applyUpdate_enhanced (r : PromptRec) (e : String) :
    applyUpdate r (updEnhanced e) = { r with enhancedPrompt := some e } := rfl

lemma applyUpdate_generated (r : PromptRec) (c : String) :
    applyUpdate r (updGenerated c) =
      { r with status := .generated, generatedCode := some c } := rfl

lemma applyUpdate_executing (r : PromptRec) :
    applyUpdate r updExecuting = { r with status := .executing } := rfl

lemma applyUpdate_completed (r : PromptRec) (res : ExecResult) (ins : List Json) :
    applyUpdate r (updCompleted res ins) =
      { r with status := .completed, executionResults := some res, insights := some ins } := rfl

lemma applyUpdate_failedGen (r : PromptRec) (e : JsError) :
    applyUpdate r (updFailedGen e) =
      { r with
        status := .failed
        error := some ⟨e.message, e.code.getD "PROCESSING_ERROR", "code_generation"⟩ } := rfl

lemma applyUpdate_failedExec (r : PromptRec) (e : JsError) :
    applyUpdate r (updFailedExec e) =
      { r with
        status := .failed
        error := some ⟨e.message, e.code.getD "EXECUTION_ERROR", "code_execution"⟩ } := rfl

/-- A record with no results, no insights and no error record satisfies
the invariant for any status. -/
lemma inv_of_fields_none (r : PromptRec) (h1 : r.executionResults = none)
    (h2 : r.insights = none) (h3 : r.error = none) : Inv r := by
  refine ⟨?_, ?_, ?_⟩ <;> intro h <;> simp [h1, h2, h3] at h

/-- A record whose status is neither `completed` nor `failed` has no
results, no insights and no error record, assuming the invariant. -/
lemma fields_none_of_inv (r : PromptRec) (h : Inv r) (hc : r.status ≠ .completed)
    (hf : r.status ≠ .failed) :
    r.executionResults = none ∧ r.insights = none ∧ r.error = none := by
  obtain ⟨h1, h2, h3⟩ := h
  refine ⟨?_, ?_, ?_⟩
  · cases hx : r.executionResults with
    | none => rfl
    | some v => exact absurd (h1 (by simp [hx])) hc
  · cases hx : r.insights with
    | none => rfl
    | some v => exact absurd (h2 (by simp [hx])) hc
  · cases hx : r.error with
    | none => rfl
    | some v => exact absurd (h3 (by simp [hx])) hf

/-- The invariant is preserved along every prefix of the writes of a stage. -/
lemma stage_take_inv (r : PromptRec) (tr : List PromptUpdate) (htr : StageTrace r tr)
    (hInv : Inv r) (n : Nat) : Inv (applyUpdates r (tr.take n)) := by
  cases htr with
  | proc eo go h =>
    obtain ⟨h1, h2, h3⟩ := fields_none_of_inv r hInv (by simp [h]) (by simp [h])
    cases eo with
    | error e =>
      rcases n with _ | (_ | n)
      · simpa [applyUpdates] using hInv
      · simp only [processPromptUpdates, List.take, applyUpdates, List.foldl,
          applyUpdate_processing]
        exact inv_of_fields_none _ (by simp [h1]) (by simp [h2]) (by simp [h3])
      · simp only [processPromptUpdates, List.take, List.take_nil, applyUpdates, List.foldl,
          applyUpdate_processing, applyUpdate_failedGen]
        exact ⟨by simp [h1], by simp [h2], fun _ => rfl⟩
    | ok enh =>
      cases hgo : go enh with
      | error e =>
        rcases n with _ | (_ | (_ | n))
        · simpa [applyUpdates] using hInv
        · simp only [processPromptUpdates, hgo, List.take, applyUpdates, List.foldl,
            applyUpdate_processing]
          exact inv_of_fields_none _ (by simp [h1]) (by simp [h2]) (by simp [h3])
        · simp only [processPromptUpdates, hgo, List.take, applyUpdates, List.foldl,
            applyUpdate_processing, applyUpdate_enhanced]
          exact inv_of_fields_none _ (by simp [h1]) (by simp [h2]) (by simp [h3])
        · simp only [processPromptUpdates, hgo, List.take, List.take_nil, applyUpdates,
            List.foldl, applyUpdate_processing, applyUpdate_enhanced, applyUpdate_failedGen]
          exact ⟨by simp [h1], by simp [h2], fun _ => rfl⟩
      | ok c =>
        rcases n with _ | (_ | (_ | n))
        · simpa [applyUpdates] using hInv
        · simp only [processPromptUpdates, hgo, List.take, applyUpdates, List.foldl,
            applyUpdate_processing]
          exact inv_of_fields_none _ (by simp [h1]) (by simp [h2]) (by simp [h3])
        · simp only [processPromptUpdates, hgo, List.take, applyUpdates, List.foldl,
            applyUpdate_processing, applyUpdate_enhanced]
          exact inv_of_fields_none _ (by simp [h1]) (by simp [h2]) (by simp [h3])
        · simp only [processPromptUpdates, hgo, List.take, List.take_nil, applyUpdates,
            List.foldl, applyUpdate_processing, applyUpdate_enhanced, applyUpdate_generated]
          exact inv_of_fields_none _ (by simp [h1]) (by simp [h2]) (by simp [h3])
  | execReq h =>
    obtain ⟨h1, h2, h3⟩ := fields_none_of_inv r hInv (by simp [h]) (by simp [h])
    rcases n with _ | n
    · simpa [applyUpdates] using hInv
    · simp only [List.take, List.take_nil, applyUpdates, List.foldl, applyUpdate_executing]
      exact inv_of_fields_none _ (by simp [h1]) (by simp [h2]) (by simp [h3])
  | run oc gi h =>
    obtain ⟨h1, h2, h3⟩ := fields_none_of_inv r hInv (by simp [h]) (by simp [h])
    cases oc with
    | error e =>
      rcases n with _ | n
      · simpa [applyUpdates] using hInv
      · simp only [executeCodeUpdates, List.take, List.take_nil, applyUpdates, List.foldl,
          applyUpdate_failedExec]
        exact ⟨by simp [h1], by simp [h2], fun _ => rfl⟩
    | ok results =>
      rcases n with _ | n
      · simpa [applyUpdates] using hInv
      · simp only [executeCodeUpdates, List.take, List.take_nil, applyUpdates, List.foldl,
          applyUpdate_completed]
        exact ⟨fun _ => rfl, fun _ => rfl, by simp [h3]⟩

/-- Every reachable record satisfies the invariant. -/
lemma reach_inv (r : PromptRec) (h : Reach r) : Inv r := by
  induction h with
  | init user p ids st => exact inv_of_fields_none _ rfl rfl rfl
  | step r tr n hr htr ih => exact stage_take_inv r tr htr ih n

/-- Every stage write sequence only moves the status along the legal
edges. -/
lemma stage_chainEdges (r : PromptRec) (tr : List PromptUpdate) (htr : StageTrace r tr) :
    chainEdgesOK r tr = true := by
  cases htr with
  | proc eo go h =>
    cases eo with
    | error e =>
      simp [processPromptUpdates, chainEdgesOK, applyUpdate_processing,
        applyUpdate_failedGen, edgeOK, h]
    | ok enh =>
      cases hgo : go enh with
      | error e =>
        simp [processPromptUpdates, hgo, chainEdgesOK, applyUpdate_processing,
          applyUpdate_enhanced, applyUpdate_failedGen, edgeOK, h]
      | ok c =>
        simp [processPromptUpdates, hgo, chainEdgesOK, applyUpdate_processing,
          applyUpdate_enhanced, applyUpdate_generated, edgeOK, h]
  | execReq h =>
    simp [chainEdgesOK, applyUpdate_executing, edgeOK, h]
  | run oc gi h =>
    cases oc with
    | error e =>
      simp [executeCodeUpdates, chainEdgesOK, applyUpdate_failedExec, edgeOK, h]
    | ok results =>
      simp [executeCodeUpdates, chainEdgesOK, applyUpdate_completed, edgeOK, h]

lemma find_map_update (l : List (String × PromptRec)) (id : String) (u : PromptUpdate) :
    ((l.map fun p => if p.1 == id then (p.1, applyUpdate p.2 u) else p).find? fun p => p.1 == id)
      = (l.find? fun p => p.1 == id).map fun p => (p.1, applyUpdate p.2 u) := by
  induction l with
  | nil => rfl
  | cons a l ih =>
    by_cases ha : a.1 = id
    · simp [List.find?, ha]
    · simp only [List.map_cons]
      rw [if_neg (by simpa using ha)]
      simp only [List.find?]
      rw [show (a.1 == id) = false by simpa using ha]
      exact ih

/-- Reading a prompt back after one partial update. -/
lemma getPromptDoc_update (s : Store) (id : String) (u : PromptUpdate) :
    getPromptDoc (updatePromptDoc s id u) id
      = (getPromptDoc s id).map fun r => applyUpdate r u := by
  show ((s.prompts.map fun p => if p.1 == id then (p.1, applyUpdate p.2 u) else p).find?
      (fun p => p.1 == id)).map (fun p => p.2)
    = ((s.prompts.find? fun p => p.1 == id).map fun p => p.2).map fun r => applyUpdate r u
  rw [find_map_update]
  cases s.prompts.find? fun p => p.1 == id <;> rfl

/-- Reading a prompt back after the write sequence of a stage. -/
lemma getPromptDoc_updates (s : Store) (id : String) (us : List PromptUpdate) :
    getPromptDoc (updatePromptDocs s id us) id
      = (getPromptDoc s id).map fun r => applyUpdates r us := by
  induction us generalizing s with
  | nil =>
    cases h : getPromptDoc s id <;> simp [updatePromptDocs, applyUpdates, h]
  | cons u us ih =>
    show getPromptDoc (updatePromptDocs (updatePromptDoc s id u) id us) id = _
    rw [ih, getPromptDoc_update]
    cases getPromptDoc s id <;> rfl

/-- No pipeline update mentions the `settings` field. -/
lemma pipelineUpdate_settings_none (u : PromptUpdate) (h : IsPipelineUpdate u) :
    u.settings = none := by
  cases h <;> rfl

/-- A single settings-free update keeps the stored `settings`. -/
lemma applyUpdate_settings (r : PromptRec) (u : PromptUpdate) (h : u.settings = none) :
    (applyUpdate r u).settings = r.settings := by
  simp [applyUpdate, h]

/-- Pipeline writes keep the stored `settings`. -/
lemma applyUpdates_settings (r : PromptRec) (us : List PromptUpdate)
    (h : ∀ u ∈ us, IsPipelineUpdate u) : (applyUpdates r us).settings = r.settings := by
  induction us generalizing r with
  | nil => rfl
  | cons u us ih =>
    show (applyUpdates (applyUpdate r u) us).settings = r.settings
    rw [ih (applyUpdate r u) fun v hv => h v (List.mem_cons_of_mem u hv)]
    exact applyUpdate_settings r u
      (pipelineUpdate_settings_none u (h u (List.mem_cons_self u us)))

/-- In the successful-fetch branch with at least one retained dataset, the
dataset context is the normal section list over exactly the retained
datasets (per-dataset sample failures were already degraded inside
`sample`). -/
lemma addDatasetContext_ok (fetch : String → Except String (Option Dataset))
    (sample : Dataset → List Json) (stringify : List Json → String)
    (ids : List String) (userId : String) (fetched : List (Option Dataset))
    (hok : fetchAll fetch ids = .ok fetched)
    (hne : retainedDatasets fetch ids userId ≠ []) :
    addDatasetContext fetch sample stringify ids userId
      = "DATASETS:\n"
        ++ String.join ((retainedDatasets fetch ids userId).map (datasetSection sample stringify))
        ++ "\n" := by
  have hr : retainedDatasets fetch ids userId
      = (fetched.filterMap id).filter fun ds => ds.ownerId == userId || strTruthy ds.teamId := by
    unfold retainedDatasets fetchedDatasets
    rw [hok]
    rfl
  have hlen : (((fetched.filterMap id).filter fun ds =>
      ds.ownerId == userId || strTruthy ds.teamId).length == 0) = false := by
    rw [← hr]
    exact beq_eq_false_iff_ne.mpr fun hz => hne (List.length_eq_zero.mp hz)
  unfold addDatasetContext
  rw [hok]
  simp only [hlen, Bool.false_eq_true, if_false]
  rw [← hr]

/-- The call flag of `executeInsights` equals the call condition in the
source: defaulted insights empty and `visualizations` truthy. -/
lemma executeInsights_called (results : ExecResult) (gi : List Json) :
    (executeInsights results gi).2
      = ((results.insights.getD []).isEmpty && results.visualizations.isSome) := by
  unfold executeInsights
  cases hc : ((results.insights.getD []).isEmpty && results.visualizations.isSome) <;>
    simp [hc]

/-- When both the sandbox insights and the fallback are empty, the
persisted insights are empty. -/
lemma executeInsights_empty (results : ExecResult) (gi : List Json)
    (h : results.insights.getD [] = []) (hg : gi = []) :
    (executeInsights results gi).1 = [] := by
  unfold executeInsights
  simp only [h, hg, List.isEmpty_nil, Bool.true_and]
  cases hv : results.visualizations.isSome <;> simp [hv]

/-! ## Claim theorems -/

/-- C10: a submission whose prompt text is absent, empty, or
whitespace-only is rejected by `createPrompt` with `INVALID_INPUT`
(HTTP 400), the store is returned unchanged (no prompt document is
created), and no processing task is scheduled. -/
theorem createPrompt_rejects_blank_prompt (s : Store) (newId : String) (user : User)
    (body : CreateBody)
    (h : body.prompt = none ∨ ∃ p, body.prompt = some p ∧ jsTrim p = "") :
    createPrompt s newId user body
      = (s, none, .error ⟨"Prompt text is required", 400, "INVALID_INPUT"⟩) := by
  rcases h with h | ⟨p, hp, ht⟩
  · simp [createPrompt, h]
  · simp [createPrompt, hp, ht]

/-- Witness for C10: the whitespace-only prompt is rejected and the empty
store stays empty. -/
theorem createPrompt_rejects_blank_prompt_witness :
    createPrompt { prompts := [], datasets := [] } "p1" userA
        { prompt := some "   " }
      = ({ prompts := [], datasets := [] }, none,
          .error ⟨"Prompt text is required", 400, "INVALID_INPUT"⟩) :=
  createPrompt_rejects_blank_prompt _ _ _ _ (Or.inr ⟨"   ", rfl, rfl⟩)

/-- C9: a prompt created with any `settings` value (in particular one with
`visualizationType = "bar"`) keeps that exact value through every sequence
of pipeline updates, because no pipeline write mentions the `settings`
field and document updates merge per field. -/
theorem settings_preserved_by_pipeline (user : User) (p : String) (ids : List String)
    (settings : Json) (us : List PromptUpdate)
    (h : ∀ u ∈ us, IsPipelineUpdate u) :
    (applyUpdates (initialRecord user p ids settings) us).settings = settings := by
  rw [applyUpdates_settings _ _ h]
  rfl

/-- Witness for C9: the `bar` settings survive a full pipeline history. -/
theorem settings_preserved_by_pipeline_witness :
    (applyUpdates (initialRecord userA "show revenue" ["ds1"] barSettings)
        [updProcessing, updEnhanced "E", updGenerated "C", updExecuting,
          updCompleted { error := none, visualizations := some [], insights := some [] } [],
          updFailedExec ⟨"boom", none⟩]).settings = barSettings :=
  settings_preserved_by_pipeline userA "show revenue" ["ds1"] barSettings _ (by
    intro u hu
    simp only [List.mem_cons, List.not_mem_nil, or_false] at hu
    rcases hu with rfl | rfl | rfl | rfl | rfl | rfl
    · exact .processing
    · exact .enhanced "E"
    · exact .generated "C"
    · exact .executing
    · exact .completed _ _
    · exact .failedExec _)

/-- C5: `generateInsights` is total (never throws) and returns the empty
list on an upstream call failure, on an unparseable response, and on a
parsed value that is not an array; a parsed array is returned as the
insight list. -/
theorem generateInsights_never_fails (post : String → Except JsError String)
    (parseJson : String → Option Json) (stringifyExec : ExecResult → String)
    (results : ExecResult) (originalPrompt : String) :
    (∀ e, post (insightsUserMessage stringifyExec results originalPrompt) = .error e →
      generateInsights post parseJson stringifyExec results originalPrompt = [])
    ∧ (∀ t, post (insightsUserMessage stringifyExec results originalPrompt) = .ok t →
        parseJson t = none →
        generateInsights post parseJson stringifyExec results originalPrompt = [])
    ∧ (∀ t j, post (insightsUserMessage stringifyExec results originalPrompt) = .ok t →
        parseJson t = some j → j.isArr = false →
        generateInsights post parseJson stringifyExec results originalPrompt = [])
    ∧ (∀ t xs, post (insightsUserMessage stringifyExec results originalPrompt) = .ok t →
        parseJson t = some (.arr xs) →
        generateInsights post parseJson stringifyExec results originalPrompt = xs) := by
  refine ⟨?_, ?_, ?_, ?_⟩
  · intro e he
    simp [generateInsights, he]
  · intro t ht hp
    simp [generateInsights, ht, hp]
  · intro t j ht hp hj
    simp only [generateInsights, ht, hp]
    cases j with
    | arr xs => simp [Json.isArr] at hj
    | null => rfl
    | bool b => rfl
    | num n => rfl
    | str s => rfl
    | obj f => rfl
  · intro t xs ht hp
    simp [generateInsights, ht, hp]

/-- Witness for C5: a failing upstream call yields the empty insight
list. -/
theorem generateInsights_never_fails_witness :
    generateInsights postFail parseJsonFail stringifyExecX resultNoViz "q" = [] :=
  (generateInsights_never_fails postFail parseJsonFail stringifyExecX resultNoViz "q").1
    ⟨"socket hang up", none⟩ rfl

/-- C3: every prompt record reachable through the pipeline operations
satisfies the invariant (results/insights only on `completed`, error
record only on `failed`), and the write sequence of every stage moves the
status only along the edges created to processing to generated to
executing to completed, with `failed` entered only from `processing` or
`executing`. -/
theorem pipeline_reachable_invariant (r : PromptRec) (h : Reach r) :
    Inv r ∧ ∀ tr, StageTrace r tr → chainEdgesOK r tr = true :=
  ⟨reach_inv r h, fun tr htr => stage_chainEdges r tr htr⟩

/-- Witness for C3: the freshly created record is reachable and satisfies
the invariant. -/
theorem pipeline_reachable_invariant_witness :
    Inv (initialRecord userA "show revenue" ["ds1"] barSettings) :=
  (pipeline_reachable_invariant _
    (Reach.init userA "show revenue" ["ds1"] barSettings)).1

/-- C2: for an accessible prompt record (owner or team match),
`executePrompt` rejects any status other than `generated` with the
invalid-state error (HTTP 400), returning the store unchanged and
scheduling nothing; on a `generated` record it persists status
`executing` and only then hands out the deferred execution task built
from the record it read. -/
theorem executePrompt_state_guard (s : Store) (id : String) (user : User)
    (options : Json) (p : PromptRec) (hp : getPromptDoc s id = some p)
    (hacc : p.userId = user.uid ∨ p.teamId = user.teamId) :
    (p.status ≠ .generated →
      executePrompt s id user options
        = (s, none,
            .error ⟨"Prompt is not ready for execution", 400, "INVALID_PROMPT_STATE"⟩))
    ∧ (p.status = .generated →
      executePrompt s id user options
        = (updatePromptDoc s id updExecuting,
            some ⟨id, p.generatedCode, p.datasetIds, options, p.prompt⟩,
            .ok .executing)
        ∧ getPromptDoc (updatePromptDoc s id updExecuting) id
            = some { p with status := .executing }) := by
  have hc : (p.userId != user.uid && p.teamId != user.teamId) = false := by
    rcases hacc with h | h <;> simp [h]
  constructor
  · intro hne
    have hs : (p.status != Status.generated) = true := by simpa using hne
    simp [executePrompt, hp, hc, hs]
  · intro hgen
    refine ⟨?_, ?_⟩
    · simp [executePrompt, hp, hc, hgen]
    · rw [getPromptDoc_update, hp]
      show some (applyUpdate p updExecuting) = _
      rw [applyUpdate_executing]

/-- Witness for C2: executing a `completed` prompt is rejected with the
invalid-state error and the store is untouched. -/
theorem executePrompt_state_guard_witness :
    executePrompt storeCompleted "p1" userA (Json.obj [])
      = (storeCompleted, none,
          .error ⟨"Prompt is not ready for execution", 400, "INVALID_PROMPT_STATE"⟩) :=
  (executePrompt_state_guard storeCompleted "p1" userA (Json.obj []) recCompleted rfl
    (Or.inl rfl)).1 (by decide)

/-- C6: a thrown enrichment error or code-generation error moves the
record to `failed` with stage `code_generation` and the error message
and (defaulted) code recorded, calling the generator zero resp. one time;
a failed execution outcome moves the record to `failed` with stage
`code_execution`.  In each case the write sequence of the stage ends at the
terminal `failed` record — nothing is retried. -/
theorem failure_stage_tags (env : ProcEnv) (xenv : ExecEnv) (s : Store)
    (t : ProcessTask) (xt : ExecTask) (p : PromptRec) (e : JsError) :
    (env.enrich t.promptText t.datasetIds t.user = .error e →
      getPromptDoc s t.promptId = some p →
      getPromptDoc (processPrompt env s t).1 t.promptId
          = some (applyUpdates p [updProcessing, updFailedGen e])
        ∧ (applyUpdates p [updProcessing, updFailedGen e]).status = .failed
        ∧ (applyUpdates p [updProcessing, updFailedGen e]).error
            = some ⟨e.message, e.code.getD "PROCESSING_ERROR", "code_generation"⟩
        ∧ (processPrompt env s t).2.genCodeCalls = 0)
    ∧ (∀ enh, env.enrich t.promptText t.datasetIds t.user = .ok enh →
        env.genCode enh = .error e →
        getPromptDoc s t.promptId = some p →
        getPromptDoc (processPrompt env s t).1 t.promptId
            = some (applyUpdates p [updProcessing, updEnhanced enh, updFailedGen e])
          ∧ (applyUpdates p [updProcessing, updEnhanced enh, updFailedGen e]).status = .failed
          ∧ (applyUpdates p [updProcessing, updEnhanced enh, updFailedGen e]).error
              = some ⟨e.message, e.code.getD "PROCESSING_ERROR", "code_generation"⟩
          ∧ (processPrompt env s t).2.genCodeCalls = 1)
    ∧ (executeOutcome xenv s xt = .error e →
        getPromptDoc s xt.promptId = some p →
        getPromptDoc (executeCode xenv s xt).1 xt.promptId
            = some (applyUpdate p (updFailedExec e))
          ∧ (applyUpdate p (updFailedExec e)).status = .failed
          ∧ (applyUpdate p (updFailedExec e)).error
              = some ⟨e.message, e.code.getD "EXECUTION_ERROR", "code_execution"⟩) := by
  refine ⟨?_, ?_, ?_⟩
  · intro he hp
    refine ⟨?_, rfl, rfl, ?_⟩
    · show getPromptDoc (updatePromptDocs s t.promptId
          (processPromptUpdates (env.enrich t.promptText t.datasetIds t.user) env.genCode))
            t.promptId = _
      rw [he, getPromptDoc_updates, hp]
      rfl
    · show (processPromptGenCalls (env.enrich t.promptText t.datasetIds t.user)) = 0
      rw [he]
      rfl
  · intro enh he hg hp
    refine ⟨?_, rfl, rfl, ?_⟩
    · show getPromptDoc (updatePromptDocs s t.promptId
          (processPromptUpdates (env.enrich t.promptText t.datasetIds t.user) env.genCode))
            t.promptId = _
      rw [he, getPromptDoc_updates, hp]
      show some (applyUpdates p (updProcessing :: updEnhanced enh ::
        (match env.genCode enh with
          | .error e => [updFailedGen e]
          | .ok code => [updGenerated code]))) = _
      rw [hg]
    · show (processPromptGenCalls (env.enrich t.promptText t.datasetIds t.user)) = 1
      rw [he]
      rfl
  · intro ho hp
    refine ⟨?_, rfl, rfl⟩
    show getPromptDoc (updatePromptDocs s xt.promptId
        (executeCodeUpdates (executeOutcome xenv s xt) _)) xt.promptId = _
    rw [ho, getPromptDoc_updates, hp]
    rfl

/-- Witness for C6: the code-generation failure of `penvGenFail` lands the
created record in `failed` with stage `code_generation` after exactly one
generator call. -/
theorem failure_stage_tags_witness :
    getPromptDoc (processPrompt penvGenFail storeCreated taskCreated).1 "p1"
        = some (applyUpdates recCreated [updProcessing, updEnhanced "ENRICHED",
            updFailedGen ⟨"Failed to generate code from Claude API",
              some "CLAUDE_SERVICE_ERROR"⟩])
      ∧ (applyUpdates recCreated [updProcessing, updEnhanced "ENRICHED",
            updFailedGen ⟨"Failed to generate code from Claude API",
              some "CLAUDE_SERVICE_ERROR"⟩]).status = .failed
      ∧ (applyUpdates recCreated [updProcessing, updEnhanced "ENRICHED",
            updFailedGen ⟨"Failed to generate code from Claude API",
              some "CLAUDE_SERVICE_ERROR"⟩]).error
          = some ⟨"Failed to generate code from Claude API", "CLAUDE_SERVICE_ERROR",
              "code_generation"⟩
      ∧ (processPrompt penvGenFail storeCreated taskCreated).2.genCodeCalls = 1 :=
  (failure_stage_tags penvGenFail envEcho storeCreated taskCreated taskP1 recCreated
      ⟨"Failed to generate code from Claude API", some "CLAUDE_SERVICE_ERROR"⟩).2.1
    "ENRICHED" rfl rfl rfl

/-- C4 corrected: after a successful sandbox run, `generateInsights` is
called exactly when the defaulted insights list is empty AND the result
carries a `visualizations` value (absent visualizations suppress the
call); whenever the defaulted insights list is empty and the fallback
yields no insights, the prompt still reaches `completed` with
`insights = []`. -/
theorem insight_fallback_condition (env : ExecEnv) (s : Store) (t : ExecTask)
    (results : ExecResult) (h : executeOutcome env s t = .ok results) :
    ((executeCode env s t).2.calledGenerateInsights
        = ((results.insights.getD []).isEmpty && results.visualizations.isSome))
    ∧ (results.insights.getD [] = [] →
        env.genInsights results t.originalPrompt = [] →
        ((getPromptDoc (executeCode env s t).1 t.promptId).map fun r => (r.status, r.insights))
          = (getPromptDoc s t.promptId).map fun _ => (Status.completed, some ([] : List Json))) := by
  constructor
  · show (match executeOutcome env s t with
      | .error _ => false
      | .ok results => (executeInsights results (env.genInsights results t.originalPrompt)).2) = _
    rw [h]
    exact executeInsights_called results _
  · intro hi hg
    show (Option.map _ (getPromptDoc (updatePromptDocs s t.promptId
        (executeCodeUpdates (executeOutcome env s t) (match executeOutcome env s t with
          | .error _ => []
          | .ok results => env.genInsights results t.originalPrompt))) t.promptId)) = _
    rw [getPromptDoc_updates, h]
    cases hp : getPromptDoc s t.promptId with
    | none => rfl
    | some p =>
      show some ((applyUpdate p (updCompleted results
          (executeInsights results (env.genInsights results t.originalPrompt)).1)).status,
        (applyUpdate p (updCompleted results
          (executeInsights results (env.genInsights results t.originalPrompt)).1)).insights)
        = some (Status.completed, some [])
      rw [applyUpdate_completed, executeInsights_empty results _ hi hg]

/-- Counterexample for C4: the sandbox returns `{insights: []}` with no
`visualizations` field; the claim requires a `generateInsights` call, but
the code does not call it — the prompt still completes with empty
insights. -/
theorem insight_fallback_not_called_without_viz :
    executeOutcome envNoViz storeExecuting taskP1 = .ok resultNoViz
    ∧ resultNoViz.insights = some []
    ∧ (executeCode envNoViz storeExecuting taskP1).2.calledGenerateInsights = false
    ∧ ((getPromptDoc (executeCode envNoViz storeExecuting taskP1).1 "p1").map
        fun r => (r.status, r.insights)) = some (.completed, some []) :=
  ⟨rfl, rfl, rfl, rfl⟩

/-- Witness for C4 (corrected): applying the theorem at the
counterexample input confirms the call condition evaluates to `false` and
the completion with empty insights. -/
theorem insight_fallback_condition_witness :
    ((executeCode envNoVizSilent storeExecuting taskP1).2.calledGenerateInsights
        = ((resultNoViz.insights.getD []).isEmpty && resultNoViz.visualizations.isSome))
    ∧ ((getPromptDoc (executeCode envNoVizSilent storeExecuting taskP1).1 "p1").map
        fun r => (r.status, r.insights))
      = (getPromptDoc storeExecuting "p1").map
          fun _ => (Status.completed, some ([] : List Json)) :=
  ⟨(insight_fallback_condition envNoVizSilent storeExecuting taskP1 resultNoViz rfl).1,
    (insight_fallback_condition envNoVizSilent storeExecuting taskP1 resultNoViz rfl).2 rfl rfl⟩

/-- C7 corrected: the pipeline does not re-read the prompt record across
the asynchronous boundary.  `executePrompt` captures `generatedCode`,
`datasetIds` and the original prompt text from the record it read during
the request, and `executeCode` later runs exactly that captured code,
whatever the store holds when execution begins (only the dataset
documents are re-read at execution time). -/
theorem execution_uses_captured_code (s : Store) (id : String) (user : User)
    (options : Json) (p : PromptRec) (hp : getPromptDoc s id = some p)
    (hacc : p.userId = user.uid ∨ p.teamId = user.teamId)
    (hgen : p.status = .generated) :
    (executePrompt s id user options).2.1
        = some ⟨id, p.generatedCode, p.datasetIds, options, p.prompt⟩
    ∧ ∀ (env : ExecEnv) (s2 : Store) (t : ExecTask),
        (executePrompt s id user options).2.1 = some t →
        (executeCode env s2 t).2.codeUsed = p.generatedCode := by
  have hc : (p.userId != user.uid && p.teamId != user.teamId) = false := by
    rcases hacc with h | h <;> simp [h]
  have hmain : (executePrompt s id user options).2.1
      = some ⟨id, p.generatedCode, p.datasetIds, options, p.prompt⟩ := by
    simp [executePrompt, hp, hc, hgen]
  refine ⟨hmain, ?_⟩
  intro env s2 t ht
  rw [hmain] at ht
  cases ht
  rfl

/-- Counterexample for C7: after `executePrompt` reads `CODE-A`, a
concurrent update stores `CODE-B`; execution still runs `CODE-A` (the
echo sandbox reproduces it in the persisted visualizations), while the
record says `CODE-B`.  The claim requires the stage to run the stored
`CODE-B`. -/
theorem execution_stale_code_counterexample :
    (executePrompt storeGenerated "p1" userA (Json.obj [])).2.1 = some taskP1
    ∧ ((getPromptDoc storeSwapped "p1").map fun r => r.generatedCode)
        = some (some "CODE-B")
    ∧ (executeCode envEcho storeSwapped taskP1).2.codeUsed = some "CODE-A"
    ∧ ((getPromptDoc (executeCode envEcho storeSwapped taskP1).1 "p1").map
          fun r => r.executionResults.map fun res => res.visualizations)
        = some (some (some [Json.str "CODE-A"])) :=
  ⟨rfl, rfl, rfl, rfl⟩

/-- Witness for C7 (corrected): applying the theorem on the concrete
generated record. -/
theorem execution_uses_captured_code_witness :
    (executePrompt storeGenerated "p1" userA (Json.obj [])).2.1
        = some ⟨"p1", some "CODE-A", [], Json.obj [], "orig question"⟩
    ∧ (executeCode envEcho storeSwapped taskP1).2.codeUsed = some "CODE-A" :=
  ⟨(execution_uses_captured_code storeGenerated "p1" userA (Json.obj []) recGenerated
      rfl (Or.inl rfl) rfl).1,
    (execution_uses_captured_code storeGenerated "p1" userA (Json.obj []) recGenerated
      rfl (Or.inl rfl) rfl).2 envEcho storeSwapped taskP1 rfl⟩

/-- C1 corrected: a fetched dataset is retained exactly when its owner id
equals the requesting user id OR its `teamId` property is truthy; the
team of the dataset is never compared against the team of the principal (which is
not even an input of `addDatasetContext`).  With all fetches successful
and at least one retained dataset, the context consists of exactly the
sections of the retained datasets; exclusion never raises (the enricher
embedding is a total function). -/
theorem dataset_retention_criterion (fetch : String → Except String (Option Dataset))
    (ids : List String) (userId : String) :
    (∀ ds, ds ∈ retainedDatasets fetch ids userId ↔
      ds ∈ fetchedDatasets fetch ids ∧ (ds.ownerId = userId ∨ strTruthy ds.teamId = true))
    ∧ (∀ (sample : Dataset → List Json) (stringify : List Json → String)
        (fetched : List (Option Dataset)), fetchAll fetch ids = .ok fetched →
        retainedDatasets fetch ids userId ≠ [] →
        addDatasetContext fetch sample stringify ids userId
          = "DATASETS:\n"
            ++ String.join ((retainedDatasets fetch ids userId).map
                (datasetSection sample stringify))
            ++ "\n") := by
  constructor
  · intro ds
    unfold retainedDatasets
    rw [List.mem_filter]
    simp
  · intro sample stringify fetched hok hne
    exact addDatasetContext_ok fetch sample stringify ids userId fetched hok hne

/-- Counterexample for C1: `dsForeign` is owned by `u2` and tagged with
team `T2`; the principal `u1` has no team (and in any case the code never
looks at the team of the principal), yet the dataset is retained and its
section appears in the enriched context.  The claim requires it to be
excluded. -/
theorem dataset_retention_foreign_team_included :
    ((retainedDatasets fetchX ["ds1", "ds2"] "u1").map fun ds => ds.name)
        = ["My Dataset", "Other Dataset"]
    ∧ dsForeign.ownerId ≠ "u1" ∧ dsForeign.teamId = some "T2" ∧ userA.teamId = none
    ∧ jsIncludes
        (addDatasetContext fetchX (getSampleData downloadFail parseCsvNone parseXlsxNone)
          stringifyEmpty ["ds1", "ds2"] "u1")
        "DATASET: Other Dataset" = true :=
  ⟨rfl, by decide, rfl, rfl, rfl⟩

/-- Witness for C1 (corrected): the context over `ds1, ds2` is exactly the
section list of the retained datasets. -/
theorem dataset_retention_criterion_witness :
    addDatasetContext fetchX (getSampleData downloadFail parseCsvNone parseXlsxNone)
        stringifyEmpty ["ds1", "ds2"] "u1"
      = "DATASETS:\n"
        ++ String.join ((retainedDatasets fetchX ["ds1", "ds2"] "u1").map
            (datasetSection (getSampleData downloadFail parseCsvNone parseXlsxNone)
              stringifyEmpty))
        ++ "\n" :=
  (dataset_retention_criterion fetchX ["ds1", "ds2"] "u1").2
    (getSampleData downloadFail parseCsvNone parseXlsxNone) stringifyEmpty
    [some dsMine, some dsForeign] rfl
    (fun h => by
      have h2 : (retainedDatasets fetchX ["ds1", "ds2"] "u1").length = 0 := by
        rw [h]
        rfl
      exact absurd h2 (by decide))

/-- C8 corrected: a dataset whose sample download or csv parse fails
contributes an empty sample list, not an error note, and aborts nothing:
with successful document fetches every retained dataset still contributes
its full section (the failed one with sample `[]`).  The
`Error retrieving dataset information.` note is produced only by the
whole-section catch — e.g. when a document fetch rejects — and then
replaces the entire DATASETS section. -/
theorem sample_failure_contained (download : String → Except String String)
    (parseCsv : String → Except String (List Json))
    (parseXlsx : String → Except String (List Sheet)) (ds : Dataset) (fi : FileInfo)
    (hfi : ds.fileInfo = some fi) :
    (∀ m, download fi.storageUrl = .error m →
      getSampleData download parseCsv parseXlsx ds = [])
    ∧ (∀ content m, download fi.storageUrl = .ok content → fi.type = "text/csv" →
        parseCsv content = .error m →
        getSampleData download parseCsv parseXlsx ds = [])
    ∧ (∀ (fetch : String → Except String (Option Dataset))
        (stringify : List Json → String) (ids : List String) (userId : String)
        (fetched : List (Option Dataset)),
        fetchAll fetch ids = .ok fetched →
        retainedDatasets fetch ids userId ≠ [] →
        addDatasetContext fetch (getSampleData download parseCsv parseXlsx) stringify
            ids userId
          = "DATASETS:\n"
            ++ String.join ((retainedDatasets fetch ids userId).map
                (datasetSection (getSampleData download parseCsv parseXlsx) stringify))
            ++ "\n")
    ∧ (∀ (fetch : String → Except String (Option Dataset))
        (sample : Dataset → List Json) (stringify : List Json → String)
        (ids : List String) (userId : String) (m : String),
        fetchAll fetch ids = .error m →
        addDatasetContext fetch sample stringify ids userId
          = "Error retrieving dataset information.\n\n") := by
  refine ⟨?_, ?_, ?_, ?_⟩
  · intro m hm
    simp only [getSampleData, hfi, hm]
  · intro content m hok hty hp
    simp [getSampleData, hfi, hok, hty, hp]
  · intro fetch stringify ids userId fetched hok hne
    exact addDatasetContext_ok fetch _ stringify ids userId fetched hok hne
  · intro fetch sample stringify ids userId m hm
    unfold addDatasetContext
    rw [hm]

/-- Counterexample for C8: the blob download of `ds3` fails; the claim requires
an explicit error note for it, but the context contains no such note —
the section of the broken dataset is present with sample data `[]`, and the
following dataset is still enriched. -/
theorem sample_failure_silent_empty :
    getSampleData downloadFail parseCsvNone parseXlsxNone dsParseFail = []
    ∧ jsIncludes ctxC8 "Error retrieving dataset" = false
    ∧ jsIncludes ctxC8 "DATASET: Broken Dataset" = true
    ∧ jsIncludes ctxC8 "DATASET: Later Dataset" = true
    ∧ jsIncludes ctxC8 "Sample Data:\n[]" = true :=
  ⟨rfl, rfl, rfl, rfl, rfl⟩

/-- Witness for C8 (corrected): the failing download yields the empty
sample list for the broken dataset. -/
theorem sample_failure_contained_witness :
    getSampleData downloadFail parseCsvNone parseXlsxNone dsParseFail = [] :=
  (sample_failure_contained downloadFail parseCsvNone parseXlsxNone dsParseFail
    ⟨"files/f.csv", "text/csv"⟩ rfl).1 "connection reset" rfl

end NL
